import Mathlib

/-!
Shallow embedding of the gmail-mcp streaming gateway (src/server.js, src/agent.js).

The chat endpoint `/api/chat/stream` is modelled as a function producing the
list of response actions the handler performs (status/header writes, SSE event
frames, end of stream).  The agent-side streaming loop of `streamAgent`
(src/agent.js) is modelled as a fold over the chunks yielded by the underlying
LangGraph stream.  The `/mcp` endpoint and its session registry are modelled
as an association list with the exact truthiness tests of the JavaScript
source.  The lazy singleton initialization of the agent (`initializeAgent`)
is modelled as a small-step interleaving system over the shared variables
`agentInstance` and `isInitializing`.
-/

namespace GmailMcp

/-- JavaScript truthiness of an optional string value: `undefined` and the
empty string are falsy, every other string is truthy.  Used for
`req.body.message`, `req.body.sessionId` and `req.headers['mcp-session-id']`. -/
def jsTruthy : Option String → Bool
  | none => false
  | some s => !(s == "")

/-- SSE events written by the chat endpoint, as in the `data:` payloads of
server.js lines 498-533: `connected{sessionId}`, `chunk{content,timestamp}`,
`complete{content,sessionId,timestamp}`, `error{error}`. -/
inductive StreamEvent
  | connected (sessionId : String)
  | chunk (content : String) (timestamp : String)
  | complete (content : String) (sessionId : String) (timestamp : String)
  | error (message : String)
  deriving DecidableEq, Repr

/-- JSON bodies written by non-stream responses (`res.json`). -/
inductive JsonBody
  | errorMsg (s : String)
  | rpcError (code : Int) (message : String) (id : Option Int)
  deriving DecidableEq, Repr

/-- One observable action the Express handler performs on the response object:
`res.status(n)`, `res.writeHead(n, …)`, `res.json(body)` (sends headers),
`res.write("data: …")` of one SSE event, `res.end()`, or the opaque output of
`transport.handleRequest` (flag records whether it sent headers). -/
inductive RespAction
  | setStatus (n : Int)
  | writeHead (n : Int)
  | jsonBody (b : JsonBody)
  | writeEvent (e : StreamEvent)
  | endStream
  | transportOut (sentHeaders : Bool)
  deriving DecidableEq, Repr

/-- One chunk message of the LangGraph stream: agent.js reads
`chunk.messages[chunk.messages.length - 1].content`.  We record the list of
message contents of the chunk. -/
structure AgentChunk where
  messages : List String
  deriving DecidableEq, Repr

/-- Whether the underlying agent turn completes normally or raises. -/
inductive AgentOutcome
  | success
  | failure (msg : String)
  deriving DecidableEq, Repr

/-- The body of the `for await` loop of `streamAgent` (agent.js lines
103-113): given the current `fullResponse` and one stream chunk, return the
updated `fullResponse` together with the snapshot passed to `onChunk`, if any.
A snapshot is emitted exactly when the chunk has messages, the last message's
content is truthy (non-empty) and differs from `fullResponse`. -/
def streamAgentStep (fullResponse : String) (c : AgentChunk) :
    String × Option String :=
  match c.messages.getLast? with
  | none => (fullResponse, none)
  | some content =>
      if content ≠ "" ∧ content ≠ fullResponse then (content, some content)
      else (fullResponse, none)

/-- The whole loop of `streamAgent`: fold `streamAgentStep` over the chunks
the stream yields, returning the final `fullResponse` and the list of
snapshots passed to `onChunk`, in order. -/
def streamAgentRun (fullResponse : String) : List AgentChunk → String × List String
  | [] => (fullResponse, [])
  | c :: cs =>
      match streamAgentStep fullResponse c with
      | (fr, some e) =>
          let rest := streamAgentRun fr cs
          (rest.1, e :: rest.2)
      | (fr, none) => streamAgentRun fr cs

/-- The parsed body of a POST to `/api/chat/stream`:
`const { message, sessionId } = req.body`. -/
structure ChatRequest where
  message : Option String
  sessionId : Option String
  deriving DecidableEq, Repr

/-- `const actualSessionId = sessionId || generated` (server.js line 486):
the caller-supplied session id when truthy, otherwise the freshly generated
`session-<timestamp>-<random>` string, which we take as a parameter. -/
def actualSessionId (req : ChatRequest) (genId : String) : String :=
  match req.sessionId with
  | some s => if s ≠ "" then s else genId
  | none => genId

/-- The `res.write` actions of the chunk callback (server.js lines 508-517):
each snapshot becomes one `chunk` event whose timestamp is the value of the
clock at that call. -/
def chunkActions (clock : Nat → String) : Nat → List String → List RespAction
  | _, [] => []
  | i, c :: cs => .writeEvent (.chunk c (clock i)) :: chunkActions clock (i + 1) cs

/-- The `/api/chat/stream` handler (server.js lines 477-546) as the list of
response actions it performs.  Inputs beyond the request: the generated
session id, a clock giving the timestamp of each successive `toISOString`
call, the chunks yielded by the agent stream before it completes or raises,
and whether the turn completes or raises.  A falsy `message` short-circuits
to `res.status(400).json({error: 'Message is required'})`.  Otherwise the
handler writes the SSE head, the `connected` event, one `chunk` event per
emitted snapshot, then on success a `complete` event carrying the last
snapshot written (the server-side `fullResponse`, initially `''`) and the
session id, or on failure an `error` event carrying the message of the error
`streamAgent` rethrew (`Agent streaming error: …`), and finally `res.end()`. -/
def chatStreamTrace (req : ChatRequest) (genId : String) (clock : Nat → String)
    (chunks : List AgentChunk) (outcome : AgentOutcome) : List RespAction :=
  if jsTruthy req.message then
    let sid := actualSessionId req genId
    let emits := (streamAgentRun "" chunks).2
    .writeHead 200 :: .writeEvent (.connected sid) ::
      (chunkActions clock 0 emits ++
        match outcome with
        | .success =>
            [.writeEvent (.complete ((emits.getLast?).getD "") sid
              (clock emits.length)), .endStream]
        | .failure m =>
            [.writeEvent (.error ("Agent streaming error: " ++ m)), .endStream])
  else
    [.setStatus 400, .jsonBody (.errorMsg "Message is required")]

/-- The SSE events written in a response trace, in order. -/
def eventsOf (tr : List RespAction) : List StreamEvent :=
  tr.filterMap fun a =>
    match a with
    | .writeEvent e => some e
    | _ => none

/-- Whether an event is a `chunk` frame. -/
def isChunkEv : StreamEvent → Bool
  | .chunk _ _ => true
  | _ => false

/-- Whether an event is a terminal frame (`complete` or `error`). -/
def isTerminalEv : StreamEvent → Bool
  | .complete _ _ _ => true
  | .error _ => true
  | _ => false

/-- Checks that a nonempty event list consists of zero or more `chunk`
frames followed by exactly one terminal frame. -/
def chunksThenTerminal : List StreamEvent → Bool
  | [] => false
  | [e] => isTerminalEv e
  | e :: rest => isChunkEv e && chunksThenTerminal rest

/-- The stream-shape invariant: exactly one `connected` first, zero or more
`chunk`, then exactly one of `complete` or `error` and nothing after it. -/
def wellFormedEvents : List StreamEvent → Bool
  | .connected _ :: rest => chunksThenTerminal rest
  | _ => false

/-! ### Session registry and the `/mcp` endpoint (server.js lines 341, 366-423) -/

/-- Transports are abstract; we only need identity. -/
abbrev Transport := Nat

/-- The process-wide `const transports = {}` map, as an association list.
`transports[sessionId] = transport` conses a binding (shadowing any older
binding of the same id, as object assignment overwrites), and
`delete transports[sessionId]` drops the binding. -/
abbrev Registry := List (String × Transport)

/-- `transports[sessionId]` lookup: the value of the first binding of the id
(bindings are shadowed on re-assignment, so the first is the current one). -/
def regLookup : Registry → String → Option Transport
  | [], _ => none
  | p :: ps, id => if p.1 == id then some p.2 else regLookup ps id

/-- `delete transports[sessionId]`. -/
def removeSession (reg : Registry) (id : String) : Registry :=
  reg.filter fun p => !(p.1 == id)

/-- `transports[sessionId] = transport` — object assignment: the id now maps
to `t` and any previous binding of the id is gone. -/
def insertSession (reg : Registry) (id : String) (t : Transport) : Registry :=
  (id, t) :: removeSession reg id

/-- The `transport.onclose` cleanup (server.js lines 386-390): when the
transport has a truthy `sessionId`, delete it from the registry; otherwise do
nothing. -/
def oncloseCleanup (reg : Registry) (tSessionId : Option String) : Registry :=
  match tSessionId with
  | some sid => if sid ≠ "" then removeSession reg sid else reg
  | none => reg

/-- Registry mutations performed over the process lifetime:
`create id t` is the `onsessioninitialized` registration of a new transport,
`remove id` is the `onclose` deletion. -/
inductive RegOp
  | create (id : String) (t : Transport)
  | remove (id : String)
  deriving DecidableEq, Repr

/-- Apply one registry operation. -/
def applyRegOp (reg : Registry) : RegOp → Registry
  | .create id t => insertSession reg id t
  | .remove id => removeSession reg id

/-- Apply a sequence of registry operations in order. -/
def runRegOps (reg : Registry) : List RegOp → Registry
  | [] => reg
  | op :: ops => runRegOps (applyRegOp reg op) ops

/-- The `app.post('/mcp')` handler (server.js lines 366-423) as a response
trace.  Branching is exactly the source's:
`if (sessionId && transports[sessionId])` reuse the transport;
`else if (!sessionId && isInitializeRequest(req.body))` build a new transport
and let it handle the request; otherwise answer 400 with the JSON-RPC error
`{code: -32000, message: 'Bad Request: No valid session ID provided'}` and
`id: null` without touching any transport.  On the two handling paths
`transport.handleRequest` writes an opaque response (`transportOut`, flagged
with whether it sent headers); if it throws, the catch writes
`res.status(500).json({code: -32603, message: 'Internal error'})` only when
`!res.headersSent`. -/
def mcpTrace (reg : Registry) (hdr : Option String) (isInit : Bool)
    (reqBodyId : Option Int) (handleSendsHeaders handleThrows : Bool) :
    List RespAction :=
  if jsTruthy hdr && (regLookup reg (hdr.getD "")).isSome then
    .transportOut handleSendsHeaders ::
      (if handleThrows && !handleSendsHeaders then
        [.setStatus 500, .jsonBody (.rpcError (-32603) "Internal error" reqBodyId)]
      else [])
  else if !(jsTruthy hdr) && isInit then
    .transportOut handleSendsHeaders ::
      (if handleThrows && !handleSendsHeaders then
        [.setStatus 500, .jsonBody (.rpcError (-32603) "Internal error" reqBodyId)]
      else [])
  else
    [.setStatus 400,
     .jsonBody (.rpcError (-32000) "Bad Request: No valid session ID provided" none)]

/-! ### Lazy agent initialization (agent.js lines 17-83)

`initializeAgent` guards a singleton with the module-level variables
`agentInstance` and `isInitializing`.  The JavaScript event loop makes every
code segment between two `await`s atomic, so the function decomposes into
three atomic steps per caller:
* the synchronous entry (return the instance if set; otherwise join the wait
  loop if `isInitializing`; otherwise set `isInitializing := true` and start
  constructing);
* one iteration of the wait loop `while (isInitializing) await sleep(100)`,
  after which the waiter returns whatever `agentInstance` holds — possibly
  `null` if the construction it waited on failed;
* completion of construction, which on success stores the engine and returns
  it, and on failure rethrows; either way the `finally` clears
  `isInitializing`.  Construction touches no shared state another caller
  reads until this completion step, so it is modelled as one step whose
  outcome is given by an oracle indexed by the attempt number. -/

/-- Abstract engines. -/
abbrev Engine := Nat

/-- Outcome of one construction attempt. -/
inductive BuildOutcome
  | ok (e : Engine)
  | fail (msg : String)
  deriving DecidableEq, Repr

/-- What a caller of `initializeAgent` observes on return. -/
inductive CallResult
  | engine (e : Engine)
  | thrown (msg : String)
  | nullReturn
  deriving DecidableEq, Repr

/-- Scheduler action: let one caller at the given control point take its next
atomic step.  Callers all run the same code, so only the control point
matters, not the caller's identity. -/
inductive InitStep
  | runStart
  | runWaiting
  | runConstructing
  deriving DecidableEq, Repr

/-- Shared module state (`agentInstance`, `isInitializing`), the number of
completed construction attempts, how many callers stand at each control
point, and the results returned (or thrown) so far, in order. -/
structure InitSys where
  agentInstance : Option Engine
  isInitializing : Bool
  attempts : Nat
  nStart : Nat
  nWaiting : Nat
  nConstructing : Nat
  results : List CallResult
  deriving DecidableEq, Repr

/-- The initial state for `n` first-time callers: both module variables at
their initial values (`null`, `false`), every caller at the entry point. -/
def initSys (n : Nat) : InitSys :=
  ⟨none, false, 0, n, 0, 0, []⟩

/-- One atomic step of one caller at the given control point, with `outcomes`
giving the result of each construction attempt.  A step with no caller at
that control point is a no-op.
* `runStart` is the synchronous entry of `initializeAgent`: return
  `agentInstance` if set; otherwise join the wait loop if `isInitializing`;
  otherwise set `isInitializing := true` and start constructing.
* `runWaiting` is one wake-up of the polling loop
  `while (isInitializing) await sleep(100)`: if `isInitializing` is still
  set, go back to sleep; otherwise leave the loop and return `agentInstance`
  — which is `null` when the awaited construction failed.
* `runConstructing` is completion of construction: on success store the
  engine in `agentInstance` and return it; on failure rethrow; either way the
  `finally` clears `isInitializing`. -/
def stepInit (outcomes : Nat → BuildOutcome) (s : InitSys) : InitStep → InitSys
  | .runStart =>
      if s.nStart = 0 then s
      else
        match s.agentInstance with
        | some e =>
            { s with nStart := s.nStart - 1, results := s.results ++ [.engine e] }
        | none =>
            if s.isInitializing then
              { s with nStart := s.nStart - 1, nWaiting := s.nWaiting + 1 }
            else
              { s with nStart := s.nStart - 1,
                       nConstructing := s.nConstructing + 1,
                       isInitializing := true }
  | .runWaiting =>
      if s.nWaiting = 0 then s
      else if s.isInitializing then s
      else
        { s with nWaiting := s.nWaiting - 1,
                 results := s.results ++
                   [match s.agentInstance with
                    | some e => .engine e
                    | none => .nullReturn] }
  | .runConstructing =>
      if s.nConstructing = 0 then s
      else
        match outcomes s.attempts with
        | .ok e =>
            { s with nConstructing := s.nConstructing - 1,
                     agentInstance := some e, isInitializing := false,
                     attempts := s.attempts + 1,
                     results := s.results ++ [.engine e] }
        | .fail m =>
            { s with nConstructing := s.nConstructing - 1,
                     isInitializing := false, attempts := s.attempts + 1,
                     results := s.results ++ [.thrown m] }

/-- Run a schedule of atomic steps from the initial state of `n` callers. -/
def runInit (outcomes : Nat → BuildOutcome) (n : Nat) (sched : List InitStep) :
    InitSys :=
  sched.foldl (stepInit outcomes) (initSys n)

/-! ### Auxiliary observers on traces -/

/-- The contents of the `chunk` events of an event list, in order. -/
def chunkContents (evs : List StreamEvent) : List String :=
  evs.filterMap fun e =>
    match e with
    | .chunk c _ => some c
    | _ => none

/-- Whether a response action commits the response headers:
`res.writeHead`, `res.json` (which sends), or output of
`transport.handleRequest` that sent headers. -/
def sendsHeaders : RespAction → Bool
  | .writeHead _ => true
  | .jsonBody _ => true
  | .transportOut sent => sent
  | _ => false

/-- Checks that every `res.status(n)` call in the trace happens while
`res.headersSent` is still false; the accumulator is the current value of
`res.headersSent`. -/
def noStatusAfterHeaders (headersSent : Bool) : List RespAction → Bool
  | [] => true
  | a :: rest =>
      match a with
      | .setStatus _ => !headersSent && noStatusAfterHeaders headersSent rest
      | _ => noStatusAfterHeaders (headersSent || sendsHeaders a) rest

/-- Checks that if the trace writes an `error` event, the only action after
the first one is `res.end()` — a single in-band terminal error frame. -/
def errorThenEnd : List RespAction → Bool
  | [] => true
  | .writeEvent (.error _) :: rest => rest == [RespAction.endStream]
  | _ :: rest => errorThenEnd rest

/-- The `/api/chat/stream` handler as run against a client that aborts after
the given number of `chunk` events have been delivered.  The handler installs
no `close` listener on the request and passes no abort signal to
`streamAgent` or to the agent stream (server.js lines 477-546, agent.js lines
86-119), so nothing in it reads the abort: the actions performed are those of
`chatStreamTrace`, for every abort position.  `none` means the client never
aborts. -/
def chatStreamTraceAborted (abortAfterChunks : Option Nat) (req : ChatRequest)
    (genId : String) (clock : Nat → String) (chunks : List AgentChunk)
    (outcome : AgentOutcome) : List RespAction :=
  chatStreamTrace req genId clock chunks outcome

/-! ## Helper lemmas -/

theorem eventsOf_append (a b : List RespAction) :
    eventsOf (a ++ b) = eventsOf a ++ eventsOf b := by
  simp [eventsOf, List.filterMap_append]

theorem chunkActions_all_chunk (clock : Nat → String) :
    ∀ (es : List String) (i : Nat) (e : StreamEvent),
      e ∈ eventsOf (chunkActions clock i es) → isChunkEv e = true := by
  intro es
  induction es with
  | nil => intro i e h; simp [chunkActions, eventsOf] at h
  | cons c cs ih =>
      intro i e h
      simp only [chunkActions, eventsOf, List.filterMap_cons] at h
      rcases List.mem_cons.mp h with h | h
      · subst h; rfl
      · exact ih (i + 1) e h

theorem chunkContents_chunkActions (clock : Nat → String) :
    ∀ (es : List String) (i : Nat),
      chunkContents (eventsOf (chunkActions clock i es)) = es := by
  intro es
  induction es with
  | nil => intro i; rfl
  | cons c cs ih =>
      intro i
      simp only [chunkActions, eventsOf, List.filterMap_cons, chunkContents]
      simpa [chunkContents, eventsOf] using ih (i + 1)

theorem chunksThenTerminal_append (es : List StreamEvent) (t : StreamEvent)
    (hes : ∀ e ∈ es, isChunkEv e = true) (ht : isTerminalEv t = true) :
    chunksThenTerminal (es ++ [t]) = true := by
  induction es with
  | nil => simpa [chunksThenTerminal]
  | cons e es ih =>
      have he := hes e (List.mem_cons_self e es)
      have hrest : ∀ x ∈ es, isChunkEv x = true := fun x hx =>
        hes x (List.mem_cons_of_mem _ hx)
      cases es with
      | nil => simp [chunksThenTerminal, he, ht]
      | cons f fs =>
          simpa [chunksThenTerminal, he] using ih hrest

/-! ## Claim theorems -/

/-- Claim C4: a POST to `/api/chat/stream` whose body has no truthy `message`
(missing or empty) is answered with `res.status(400).json({error: 'Message is
required'})` and no event stream is opened: the trace contains no header
write and no SSE event at all. -/
theorem chat_missing_message_rejected (req : ChatRequest) (genId : String)
    (clock : Nat → String) (chunks : List AgentChunk) (outcome : AgentOutcome)
    (h : jsTruthy req.message = false) :
    chatStreamTrace req genId clock chunks outcome =
      [.setStatus 400, .jsonBody (.errorMsg "Message is required")] ∧
    eventsOf (chatStreamTrace req genId clock chunks outcome) = [] := by
  have hne : ¬ (jsTruthy req.message = true) := by simp [h]
  constructor
  · unfold chatStreamTrace
    rw [if_neg hne]
  · unfold chatStreamTrace
    rw [if_neg hne]
    rfl

/-- Witness for C4 at the concrete request with no `message` field. -/
theorem chat_missing_message_rejected_witness :
    chatStreamTrace ⟨none, none⟩ "g" (fun _ => "t") [] .success =
      [.setStatus 400, .jsonBody (.errorMsg "Message is required")] ∧
    eventsOf (chatStreamTrace ⟨none, none⟩ "g" (fun _ => "t") [] .success) = [] :=
  chat_missing_message_rejected ⟨none, none⟩ "g" (fun _ => "t") [] .success rfl

/-- Claim C9: the `transport.onclose` cleanup is idempotent — running it a
second time with the same transport session id leaves the registry exactly as
after the first run. -/
theorem remove_session_idempotent (reg : Registry) (tSessionId : Option String) :
    oncloseCleanup (oncloseCleanup reg tSessionId) tSessionId =
      oncloseCleanup reg tSessionId := by
  cases tSessionId with
  | none => rfl
  | some sid =>
      by_cases h : sid = ""
      · simp [oncloseCleanup, h]
      · simp only [oncloseCleanup, if_pos h, removeSession, List.filter_filter]
        apply List.filter_congr
        intro p _
        cases hp : p.1 == sid <;> simp [hp]

/-- Claim C5: a POST to `/mcp` that supplies a truthy session id not in the
registry, or supplies no truthy id and is not an initialization request, is
answered with `res.status(400)` and the JSON-RPC error body
`{code: -32000, message: 'Bad Request: No valid session ID provided'}`, and
no transport handles the request (no `transportOut` action occurs). -/
theorem mcp_invalid_session_rejected (reg : Registry) (hdr : Option String)
    (isInit : Bool) (reqBodyId : Option Int) (hs ht : Bool)
    (h : (jsTruthy hdr = true ∧ regLookup reg (hdr.getD "") = none) ∨
         (jsTruthy hdr = false ∧ isInit = false)) :
    mcpTrace reg hdr isInit reqBodyId hs ht =
      [.setStatus 400,
       .jsonBody (.rpcError (-32000) "Bad Request: No valid session ID provided" none)] ∧
    ∀ b, RespAction.transportOut b ∉ mcpTrace reg hdr isInit reqBodyId hs ht := by
  have htr : mcpTrace reg hdr isInit reqBodyId hs ht =
      [.setStatus 400,
       .jsonBody (.rpcError (-32000) "Bad Request: No valid session ID provided" none)] := by
    rcases h with ⟨h1, h2⟩ | ⟨h1, h2⟩
    · unfold mcpTrace
      rw [if_neg, if_neg]
      · simp [h1]
      · simp [h1, h2]
    · unfold mcpTrace
      rw [if_neg, if_neg]
      · simp [h1, h2]
      · simp [h1]
  refine ⟨htr, ?_⟩
  intro b hmem
  rw [htr] at hmem
  simp at hmem

/-- Witness for C5: an unknown session id against the empty registry. -/
theorem mcp_invalid_session_rejected_witness :
    mcpTrace [] (some "x") true none false false =
      [.setStatus 400,
       .jsonBody (.rpcError (-32000) "Bad Request: No valid session ID provided" none)] :=
  (mcp_invalid_session_rejected [] (some "x") true none false false
    (Or.inl ⟨rfl, rfl⟩)).1

theorem regLookup_removeSession_ne (reg : Registry) (id id' : String)
    (h : id ≠ id') :
    regLookup (removeSession reg id') id = regLookup reg id := by
  induction reg with
  | nil => rfl
  | cons p ps ih =>
      by_cases hp : p.1 = id'
      · have h1 : (p.1 == id) = false := by
          rw [hp]
          exact beq_eq_false_iff_ne.mpr fun hc => h hc.symm
        have h2 : (!(p.1 == id')) = false := by simp [hp]
        simp only [removeSession, List.filter_cons, h2, if_false,
          Bool.false_eq_true, ite_false]
        rw [show regLookup (p :: ps) id = regLookup ps id by
          simp [regLookup, h1]]
        simpa [removeSession] using ih
      · have h2 : (!(p.1 == id')) = true := by simp [hp]
        simp only [removeSession, List.filter_cons, h2, if_true]
        by_cases hq : p.1 = id
        · simp [regLookup, hq]
        · have h1 : (p.1 == id) = false := beq_eq_false_iff_ne.mpr hq
          simp only [regLookup, h1, Bool.false_eq_true, ite_false]
          simpa [removeSession] using ih

theorem regLookup_insert_self (reg : Registry) (id : String) (t : Transport) :
    regLookup (insertSession reg id t) id = some t := by
  simp [insertSession, regLookup]

theorem regLookup_runRegOps_untouched (id : String) (t : Transport) :
    ∀ (ops : List RegOp) (reg : Registry), regLookup reg id = some t →
      (∀ op ∈ ops, (∀ t', op ≠ RegOp.create id t') ∧ op ≠ RegOp.remove id) →
      regLookup (runRegOps reg ops) id = some t := by
  intro ops
  induction ops with
  | nil => intro reg h _; exact h
  | cons op ops ih =>
      intro reg h hops
      have hop := hops op (List.mem_cons_self op ops)
      have hrest : ∀ op' ∈ ops, (∀ t', op' ≠ RegOp.create id t') ∧
          op' ≠ RegOp.remove id := fun op' hm => hops op' (List.mem_cons_of_mem _ hm)
      cases op with
      | create id' t' =>
          have hne : id ≠ id' := fun he => (hop.1 t') (by rw [he])
          have hbne : (id' == id) = false :=
            beq_eq_false_iff_ne.mpr fun hc => hne hc.symm
          have hstep : regLookup (applyRegOp reg (RegOp.create id' t')) id =
              some t := by
            simp only [applyRegOp, insertSession, regLookup, hbne,
              Bool.false_eq_true, ite_false]
            rw [regLookup_removeSession_ne reg id id' hne]
            exact h
          have : runRegOps reg (RegOp.create id' t' :: ops) =
              runRegOps (applyRegOp reg (RegOp.create id' t')) ops := rfl
          rw [this]
          exact ih _ hstep hrest
      | remove id' =>
          have hne : id ≠ id' := fun he => hop.2 (by rw [he])
          have hstep : regLookup (applyRegOp reg (RegOp.remove id')) id =
              some t :=
            (regLookup_removeSession_ne reg id id' hne).trans h
          have : runRegOps reg (RegOp.remove id' :: ops) =
              runRegOps (applyRegOp reg (RegOp.remove id')) ops := rfl
          rw [this]
          exact ih _ hstep hrest

/-- Claim C6: a valid initialization request binds a fresh session id — one
never previously issued, which the `crypto.randomUUID` generator (UUID v4,
122 random bits) supplies and which the hypotheses here record — to the newly
constructed transport, and every later lookup of that id returns that same
transport as long as no operation removes (or, impossible for a fresh id,
re-creates) it. -/
theorem session_create_lookup_stable (reg : Registry) (id : String)
    (t : Transport) (ops : List RegOp)
    (hfresh : regLookup reg id = none)
    (hops : ∀ op ∈ ops, (∀ t', op ≠ RegOp.create id t') ∧ op ≠ RegOp.remove id) :
    regLookup reg id = none ∧
    regLookup (applyRegOp reg (RegOp.create id t)) id = some t ∧
    regLookup (runRegOps (applyRegOp reg (RegOp.create id t)) ops) id = some t := by
  have hins : regLookup (applyRegOp reg (RegOp.create id t)) id = some t :=
    regLookup_insert_self reg id t
  exact ⟨hfresh, hins, regLookup_runRegOps_untouched id t ops _ hins hops⟩

/-- Witness for C6: create `"a"` in the empty registry, then create and
remove an unrelated session `"b"`; lookup of `"a"` still returns its
transport. -/
theorem session_create_lookup_stable_witness :
    regLookup [] "a" = none ∧
    regLookup (applyRegOp [] (RegOp.create "a" 1)) "a" = some 1 ∧
    regLookup (runRegOps (applyRegOp [] (RegOp.create "a" 1))
      [RegOp.create "b" 2, RegOp.remove "b"]) "a" = some 1 :=
  session_create_lookup_stable [] "a" 1 [RegOp.create "b" 2, RegOp.remove "b"]
    rfl
    (by
      intro op hop
      rcases List.mem_cons.mp hop with h | h
      · subst h
        refine ⟨fun t' hc => ?_, fun hc => ?_⟩
        · injection hc with h1 h2
          exact absurd h1 (by decide)
        · cases hc
      · rcases List.mem_cons.mp h with h | h
        · subst h
          refine ⟨fun t' hc => ?_, fun hc => ?_⟩
          · cases hc
          · injection hc with h1
            exact absurd h1 (by decide)
        · cases h)

theorem eventsOf_chat_success (req : ChatRequest) (genId : String)
    (clock : Nat → String) (chunks : List AgentChunk)
    (h : jsTruthy req.message = true) :
    eventsOf (chatStreamTrace req genId clock chunks .success) =
      .connected (actualSessionId req genId) ::
        (eventsOf (chunkActions clock 0 (streamAgentRun "" chunks).2) ++
          [.complete ((((streamAgentRun "" chunks).2).getLast?).getD "")
            (actualSessionId req genId)
            (clock (streamAgentRun "" chunks).2.length)]) := by
  unfold chatStreamTrace
  rw [if_pos h]
  simp [eventsOf, List.filterMap_append]

theorem eventsOf_chat_failure (req : ChatRequest) (genId : String)
    (clock : Nat → String) (chunks : List AgentChunk) (m : String)
    (h : jsTruthy req.message = true) :
    eventsOf (chatStreamTrace req genId clock chunks (.failure m)) =
      .connected (actualSessionId req genId) ::
        (eventsOf (chunkActions clock 0 (streamAgentRun "" chunks).2) ++
          [.error ("Agent streaming error: " ++ m)]) := by
  unfold chatStreamTrace
  rw [if_pos h]
  simp [eventsOf, List.filterMap_append]

theorem chunkContents_chat (req : ChatRequest) (genId : String)
    (clock : Nat → String) (chunks : List AgentChunk) (outcome : AgentOutcome)
    (h : jsTruthy req.message = true) :
    chunkContents (eventsOf (chatStreamTrace req genId clock chunks outcome)) =
      (streamAgentRun "" chunks).2 := by
  cases outcome with
  | success =>
      rw [eventsOf_chat_success req genId clock chunks h]
      simp only [chunkContents, List.filterMap_cons, List.filterMap_append]
      simpa [chunkContents] using
        chunkContents_chunkActions clock (streamAgentRun "" chunks).2 0
  | failure m =>
      rw [eventsOf_chat_failure req genId clock chunks m h]
      simp only [chunkContents, List.filterMap_cons, List.filterMap_append]
      simpa [chunkContents] using
        chunkContents_chunkActions clock (streamAgentRun "" chunks).2 0

/-- Claim C1: with a truthy `message`, the event sequence of a chat stream is
exactly one `connected` first, then zero or more `chunk`, then exactly one
terminal `complete` or `error`, never both and never neither. -/
theorem chat_stream_event_shape (req : ChatRequest) (genId : String)
    (clock : Nat → String) (chunks : List AgentChunk) (outcome : AgentOutcome)
    (h : jsTruthy req.message = true) :
    wellFormedEvents (eventsOf (chatStreamTrace req genId clock chunks outcome)) =
      true := by
  cases outcome with
  | success =>
      rw [eventsOf_chat_success req genId clock chunks h]
      simp only [wellFormedEvents]
      exact chunksThenTerminal_append _ _
        (fun e he => chunkActions_all_chunk clock _ 0 e he) rfl
  | failure m =>
      rw [eventsOf_chat_failure req genId clock chunks m h]
      simp only [wellFormedEvents]
      exact chunksThenTerminal_append _ _
        (fun e he => chunkActions_all_chunk clock _ 0 e he) rfl

/-- Witness for C1: a one-chunk successful stream. -/
theorem chat_stream_event_shape_witness :
    wellFormedEvents (eventsOf (chatStreamTrace ⟨some "hi", none⟩ "g"
      (fun i => toString i) [⟨["a"]⟩] .success)) = true :=
  chat_stream_event_shape ⟨some "hi", none⟩ "g" (fun i => toString i)
    [⟨["a"]⟩] .success rfl

/-- Claim C3: on normal completion the terminal `complete` event carries the
content of the last emitted `chunk` event (the empty string when no chunk was
emitted) and the same session id the opening `connected` event carried. -/
theorem chat_complete_matches_last_chunk (req : ChatRequest) (genId : String)
    (clock : Nat → String) (chunks : List AgentChunk)
    (h : jsTruthy req.message = true) :
    ∃ sid,
      (eventsOf (chatStreamTrace req genId clock chunks .success)).head? =
        some (.connected sid) ∧
      ∃ ts,
        (eventsOf (chatStreamTrace req genId clock chunks .success)).getLast? =
          some (.complete
            (((chunkContents (eventsOf
              (chatStreamTrace req genId clock chunks .success))).getLast?).getD "")
            sid ts) := by
  refine ⟨actualSessionId req genId, ?_, ?_⟩
  · rw [eventsOf_chat_success req genId clock chunks h]
    rfl
  · refine ⟨clock (streamAgentRun "" chunks).2.length, ?_⟩
    rw [chunkContents_chat req genId clock chunks .success h,
      eventsOf_chat_success req genId clock chunks h,
      ← List.cons_append, List.getLast?_concat]

/-- Witness for C3 on a two-chunk successful stream. -/
theorem chat_complete_matches_last_chunk_witness :
    ∃ sid,
      (eventsOf (chatStreamTrace ⟨some "hi", none⟩ "g" (fun i => toString i)
        [⟨["a"]⟩, ⟨["ab"]⟩] .success)).head? = some (.connected sid) ∧
      ∃ ts,
        (eventsOf (chatStreamTrace ⟨some "hi", none⟩ "g" (fun i => toString i)
          [⟨["a"]⟩, ⟨["ab"]⟩] .success)).getLast? =
          some (.complete
            (((chunkContents (eventsOf (chatStreamTrace ⟨some "hi", none⟩ "g"
              (fun i => toString i) [⟨["a"]⟩, ⟨["ab"]⟩] .success))).getLast?).getD "")
            sid ts) :=
  chat_complete_matches_last_chunk ⟨some "hi", none⟩ "g" (fun i => toString i)
    [⟨["a"]⟩, ⟨["ab"]⟩] rfl

theorem streamAgentRun_chain :
    ∀ (cs : List AgentChunk) (fr : String),
      List.Chain' (· ≠ ·) (fr :: (streamAgentRun fr cs).2) ∧
      ∀ e ∈ (streamAgentRun fr cs).2, e ≠ "" := by
  intro cs
  induction cs with
  | nil => intro fr; simp [streamAgentRun]
  | cons c cs ih =>
      intro fr
      cases hl : c.messages.getLast? with
      | none =>
          have hstep : streamAgentStep fr c = (fr, none) := by
            simp [streamAgentStep, hl]
          simp only [streamAgentRun, hstep]
          exact ih fr
      | some content =>
          by_cases hcond : content ≠ "" ∧ content ≠ fr
          · have hstep : streamAgentStep fr c = (content, some content) := by
              simp [streamAgentStep, hl, hcond]
            simp only [streamAgentRun, hstep]
            constructor
            · rw [List.chain'_cons]
              exact ⟨fun he => hcond.2 he.symm, (ih content).1⟩
            · intro e he
              rcases List.mem_cons.mp he with he | he
              · subst he; exact hcond.1
              · exact (ih content).2 e he
          · have hstep : streamAgentStep fr c = (fr, none) := by
              simp [streamAgentStep, hl, hcond]
            simp only [streamAgentRun, hstep]
            exact ih fr

/-- Claim C10: the contents of the `chunk` events of one chat stream are all
non-empty and consecutive ones always differ: `streamAgent` only calls
`onChunk` when the latest message content is truthy and differs from the
previously emitted snapshot. -/
theorem chunk_contents_strictly_change (req : ChatRequest) (genId : String)
    (clock : Nat → String) (chunks : List AgentChunk) (outcome : AgentOutcome) :
    List.Chain' (· ≠ ·)
      (chunkContents (eventsOf (chatStreamTrace req genId clock chunks outcome))) ∧
    ∀ c ∈ chunkContents (eventsOf (chatStreamTrace req genId clock chunks outcome)),
      c ≠ "" := by
  by_cases h : jsTruthy req.message = true
  · rw [chunkContents_chat req genId clock chunks outcome h]
    have hch := streamAgentRun_chain chunks ""
    exact ⟨hch.1.tail, hch.2⟩
  · have hne : jsTruthy req.message = false := by
      cases hv : jsTruthy req.message
      · rfl
      · exact absurd hv h
    unfold chatStreamTrace
    rw [if_neg h]
    simp [eventsOf, chunkContents]

theorem chunkActions_no_status (clock : Nat → String) :
    ∀ (es : List String) (i : Nat) (n : Int),
      RespAction.setStatus n ∉ chunkActions clock i es := by
  intro es
  induction es with
  | nil => intro i n hm; cases hm
  | cons c cs ih =>
      intro i n hm
      rcases List.mem_cons.mp hm with hm | hm
      · cases hm
      · exact ih (i + 1) n hm

theorem noStatusAfterHeaders_of_none :
    ∀ (tr : List RespAction), (∀ n, RespAction.setStatus n ∉ tr) →
      ∀ hs, noStatusAfterHeaders hs tr = true := by
  intro tr
  induction tr with
  | nil => intro _ _; rfl
  | cons a rest ih =>
      intro h hs
      have hrest : ∀ n, RespAction.setStatus n ∉ rest := fun n hm =>
        h n (List.mem_cons_of_mem _ hm)
      cases a with
      | setStatus n => exact absurd (List.mem_cons_self _ _) (h n)
      | writeHead n => simpa [noStatusAfterHeaders] using ih hrest _
      | jsonBody b => simpa [noStatusAfterHeaders] using ih hrest _
      | writeEvent e => simpa [noStatusAfterHeaders] using ih hrest _
      | endStream => simpa [noStatusAfterHeaders] using ih hrest _
      | transportOut s => simpa [noStatusAfterHeaders] using ih hrest _

theorem errorThenEnd_chunkActions (clock : Nat → String) :
    ∀ (es : List String) (i : Nat) (l : List RespAction),
      errorThenEnd (chunkActions clock i es ++ l) = errorThenEnd l := by
  intro es
  induction es with
  | nil => intro i l; rfl
  | cons c cs ih =>
      intro i l
      simp only [chunkActions, List.cons_append, errorThenEnd]
      exact ih (i + 1) l

theorem chat_trace_headers_and_errors (req : ChatRequest) (genId : String)
    (clock : Nat → String) (chunks : List AgentChunk) (outcome : AgentOutcome) :
    noStatusAfterHeaders false (chatStreamTrace req genId clock chunks outcome) =
      true ∧
    errorThenEnd (chatStreamTrace req genId clock chunks outcome) = true := by
  by_cases h : jsTruthy req.message = true
  · unfold chatStreamTrace
    rw [if_pos h]
    cases outcome with
    | success =>
        constructor
        · simp only [noStatusAfterHeaders, sendsHeaders, Bool.false_or]
          apply noStatusAfterHeaders_of_none
          intro n hm
          rcases List.mem_append.mp hm with hm | hm
          · exact chunkActions_no_status clock _ 0 n hm
          · simp at hm
        · simp only [errorThenEnd]
          rw [errorThenEnd_chunkActions]
          rfl
    | failure m =>
        constructor
        · simp only [noStatusAfterHeaders, sendsHeaders, Bool.false_or]
          apply noStatusAfterHeaders_of_none
          intro n hm
          rcases List.mem_append.mp hm with hm | hm
          · exact chunkActions_no_status clock _ 0 n hm
          · simp at hm
        · simp only [errorThenEnd]
          rw [errorThenEnd_chunkActions]
          rfl
  · unfold chatStreamTrace
    rw [if_neg h]
    exact ⟨rfl, rfl⟩

theorem mcp_trace_headers (reg : Registry) (hdr : Option String)
    (isInit : Bool) (reqBodyId : Option Int) (hs ht : Bool) :
    noStatusAfterHeaders false (mcpTrace reg hdr isInit reqBodyId hs ht) = true := by
  unfold mcpTrace
  by_cases h1 : (jsTruthy hdr && (regLookup reg (hdr.getD "")).isSome) = true
  · rw [if_pos h1]
    cases hs <;> cases ht <;> rfl
  · rw [if_neg h1]
    by_cases h2 : (!(jsTruthy hdr) && isInit) = true
    · rw [if_pos h2]
      cases hs <;> cases ht <;> rfl
    · rw [if_neg h2]
      rfl

/-- Claim C7: every `res.status` call of either handler happens while
`res.headersSent` is still false, and once the chat event feed has started
any failure is reported as a single in-band `error` event followed only by
`res.end()`. -/
theorem status_and_inband_errors :
    (∀ (req : ChatRequest) (genId : String) (clock : Nat → String)
        (chunks : List AgentChunk) (outcome : AgentOutcome),
      noStatusAfterHeaders false (chatStreamTrace req genId clock chunks outcome) =
        true ∧
      errorThenEnd (chatStreamTrace req genId clock chunks outcome) = true) ∧
    (∀ (reg : Registry) (hdr : Option String) (isInit : Bool)
        (reqBodyId : Option Int) (hs ht : Bool),
      noStatusAfterHeaders false (mcpTrace reg hdr isInit reqBodyId hs ht) = true) :=
  ⟨chat_trace_headers_and_errors, mcp_trace_headers⟩

/-- Counterexample to claim C8: in a successful stream whose agent turn
yields three distinct snapshots, a client abort observed after the second
`chunk` event does not stop anything — the handler still writes a third
`chunk` event (three chunk events in total), because no code observes the
abort. -/
theorem chat_abort_chunk_after_abort_cex :
    (eventsOf (chatStreamTraceAborted (some 2) ⟨some "hi", none⟩ "g"
      (fun i => toString i) [⟨["a"]⟩, ⟨["ab"]⟩, ⟨["abc"]⟩] .success)).get? 3 =
      some (.chunk "abc" "2") ∧
    ((eventsOf (chatStreamTraceAborted (some 2) ⟨some "hi", none⟩ "g"
      (fun i => toString i) [⟨["a"]⟩, ⟨["ab"]⟩, ⟨["abc"]⟩] .success)).countP
      isChunkEv = 3 ∧ ¬ (3 ≤ 2)) := by
  decide

/-- Amended C8: the handler installs no abort handling at all, so the trace
it produces is identical for every abort position, and in particular every
snapshot the agent turn emits is written as a `chunk` event even after the
client has aborted. -/
theorem chat_abort_not_observed (abortAfterChunks : Option Nat)
    (req : ChatRequest) (genId : String) (clock : Nat → String)
    (chunks : List AgentChunk) (outcome : AgentOutcome)
    (h : jsTruthy req.message = true) :
    chatStreamTraceAborted abortAfterChunks req genId clock chunks outcome =
      chatStreamTrace req genId clock chunks outcome ∧
    chunkContents (eventsOf (chatStreamTraceAborted abortAfterChunks req genId
      clock chunks outcome)) = (streamAgentRun "" chunks).2 :=
  ⟨rfl, chunkContents_chat req genId clock chunks outcome h⟩

/-- Witness for the amended C8 at a concrete aborted stream. -/
theorem chat_abort_not_observed_witness :
    chatStreamTraceAborted (some 2) ⟨some "hi", none⟩ "g" (fun i => toString i)
      [⟨["a"]⟩, ⟨["ab"]⟩, ⟨["abc"]⟩] .success =
      chatStreamTrace ⟨some "hi", none⟩ "g" (fun i => toString i)
        [⟨["a"]⟩, ⟨["ab"]⟩, ⟨["abc"]⟩] .success ∧
    chunkContents (eventsOf (chatStreamTraceAborted (some 2) ⟨some "hi", none⟩
      "g" (fun i => toString i) [⟨["a"]⟩, ⟨["ab"]⟩, ⟨["abc"]⟩] .success)) =
      (streamAgentRun "" [⟨["a"]⟩, ⟨["ab"]⟩, ⟨["abc"]⟩]).2 :=
  chat_abort_not_observed (some 2) ⟨some "hi", none⟩ "g" (fun i => toString i)
    [⟨["a"]⟩, ⟨["ab"]⟩, ⟨["abc"]⟩] .success rfl

/-- Mutual-exclusion invariant of `initializeAgent`: exactly one caller is
inside the construction critical section while `isInitializing` is set, and
none otherwise. -/
def exclInv (s : InitSys) : Prop :=
  s.nConstructing = (if s.isInitializing then 1 else 0)

theorem exclInv_step (outcomes : Nat → BuildOutcome) (s : InitSys)
    (a : InitStep) (h : exclInv s) : exclInv (stepInit outcomes s a) := by
  cases a with
  | runStart =>
      by_cases h0 : s.nStart = 0
      · simpa [stepInit, h0] using h
      · cases hai : s.agentInstance with
        | some e => simpa [stepInit, h0, hai, exclInv] using h
        | none =>
            by_cases hii : s.isInitializing
            · simpa [stepInit, h0, hai, hii, exclInv] using h
            · have hz : s.nConstructing = 0 := by simpa [exclInv, hii] using h
              simp [stepInit, h0, hai, hii, exclInv, hz]
  | runWaiting =>
      by_cases h0 : s.nWaiting = 0
      · simpa [stepInit, h0] using h
      · by_cases hii : s.isInitializing
        · simpa [stepInit, h0, hii] using h
        · simpa [stepInit, h0, hii, exclInv] using h
  | runConstructing =>
      by_cases h0 : s.nConstructing = 0
      · simpa [stepInit, h0] using h
      · have hii : s.isInitializing = true := by
          by_contra hc
          simp only [Bool.not_eq_true] at hc
          exact h0 (by simpa [exclInv, hc] using h)
        have h1 : s.nConstructing = 1 := by simpa [exclInv, hii] using h
        cases ho : outcomes s.attempts with
        | ok e => simp [stepInit, h0, ho, exclInv, h1]
        | fail m => simp [stepInit, h0, ho, exclInv, h1]

/-- Invariant of `initializeAgent` when the first construction attempt
succeeds with engine `e`: construction runs at most once, the stored instance
is only ever `e`, a waiter only exists once a construction has started, and
every returned result is `e`. -/
structure FirstOkInv (e : Engine) (s : InitSys) : Prop where
  excl : s.nConstructing = (if s.isInitializing then 1 else 0)
  inst : (s.attempts = 0 ∧ s.agentInstance = none) ∨
         (s.attempts = 1 ∧ s.agentInstance = some e)
  started : s.attempts + s.nConstructing ≤ 1
  waiter : 0 < s.nWaiting → 1 ≤ s.attempts + s.nConstructing
  res : ∀ r ∈ s.results, r = CallResult.engine e

theorem firstOkInv_step (outcomes : Nat → BuildOutcome) (e : Engine)
    (hout : outcomes 0 = .ok e) (s : InitSys) (a : InitStep)
    (h : FirstOkInv e s) : FirstOkInv e (stepInit outcomes s a) := by
  obtain ⟨hexcl, hinst, hstart, hwait, hres⟩ := h
  cases a with
  | runStart =>
      by_cases h0 : s.nStart = 0
      · have hstep : stepInit outcomes s .runStart = s := by simp [stepInit, h0]
        rw [hstep]
        exact ⟨hexcl, hinst, hstart, hwait, hres⟩
      · cases hai : s.agentInstance with
        | some e' =>
            have he' : e' = e := by
              rcases hinst with ⟨_, hn⟩ | ⟨_, hsome⟩
              · rw [hai] at hn; cases hn
              · rw [hai] at hsome; exact (Option.some_inj.mp hsome)
            have hstep : stepInit outcomes s .runStart =
                { s with nStart := s.nStart - 1,
                         results := s.results ++ [.engine e'] } := by
              simp [stepInit, h0, hai]
            rw [hstep]
            refine ⟨hexcl, ?_, hstart, hwait, ?_⟩
            · simpa using hinst
            · intro r hr
              rcases List.mem_append.mp hr with hr | hr
              · exact hres r hr
              · simp at hr
                rw [hr, he']
        | none =>
            by_cases hii : s.isInitializing
            · have hstep : stepInit outcomes s .runStart =
                  { s with nStart := s.nStart - 1,
                           nWaiting := s.nWaiting + 1 } := by
                simp [stepInit, h0, hai, hii]
              rw [hstep]
              refine ⟨hexcl, by simpa using hinst, hstart, ?_, hres⟩
              intro _
              have : s.nConstructing = 1 := by simpa [hii] using hexcl
              simp [this]
            · have hz : s.nConstructing = 0 := by simpa [hii] using hexcl
              have ha0 : s.attempts = 0 := by
                rcases hinst with ⟨h1, _⟩ | ⟨_, hsome⟩
                · exact h1
                · rw [hai] at hsome; cases hsome
              have hstep : stepInit outcomes s .runStart =
                  { s with nStart := s.nStart - 1,
                           nConstructing := s.nConstructing + 1,
                           isInitializing := true } := by
                simp [stepInit, h0, hai, hii]
              rw [hstep]
              refine ⟨by simp [hz], by simpa using hinst, ?_, ?_, hres⟩
              · simp [ha0, hz]
              · intro _
                simp [ha0, hz]
  | runWaiting =>
      by_cases h0 : s.nWaiting = 0
      · have hstep : stepInit outcomes s .runWaiting = s := by
          simp [stepInit, h0]
        rw [hstep]
        exact ⟨hexcl, hinst, hstart, hwait, hres⟩
      · by_cases hii : s.isInitializing
        · have hstep : stepInit outcomes s .runWaiting = s := by
            simp [stepInit, h0, hii]
          rw [hstep]
          exact ⟨hexcl, hinst, hstart, hwait, hres⟩
        · have hz : s.nConstructing = 0 := by simpa [hii] using hexcl
          have ha1 : s.attempts = 1 := by
            have h1 := hwait (Nat.pos_of_ne_zero h0)
            rw [hz] at h1
            omega
          have hsome : s.agentInstance = some e := by
            rcases hinst with ⟨h1, _⟩ | ⟨_, h2⟩
            · rw [ha1] at h1; cases h1
            · exact h2
          have hstep : stepInit outcomes s .runWaiting =
              { s with nWaiting := s.nWaiting - 1,
                       results := s.results ++ [.engine e] } := by
            simp [stepInit, h0, hii, hsome]
          rw [hstep]
          refine ⟨hexcl, by simpa using hinst, hstart, ?_, ?_⟩
          · intro _
            simp [ha1]
          · intro r hr
            rcases List.mem_append.mp hr with hr | hr
            · exact hres r hr
            · simp at hr
              rw [hr]
  | runConstructing =>
      by_cases h0 : s.nConstructing = 0
      · have hstep : stepInit outcomes s .runConstructing = s := by
          simp [stepInit, h0]
        rw [hstep]
        exact ⟨hexcl, hinst, hstart, hwait, hres⟩
      · have hii : s.isInitializing = true := by
          by_contra hc
          simp only [Bool.not_eq_true] at hc
          exact h0 (by simpa [hc] using hexcl)
        have h1 : s.nConstructing = 1 := by simpa [hii] using hexcl
        have ha0 : s.attempts = 0 := by
          rw [h1] at hstart
          omega
        have ho : outcomes s.attempts = .ok e := by rw [ha0, hout]
        have hstep : stepInit outcomes s .runConstructing =
            { s with nConstructing := s.nConstructing - 1,
                     agentInstance := some e, isInitializing := false,
                     attempts := s.attempts + 1,
                     results := s.results ++ [.engine e] } := by
          simp [stepInit, h0, ho]
        rw [hstep]
        refine ⟨by simp [h1], ?_, ?_, ?_, ?_⟩
        · right
          simp [ha0]
        · simp [ha0, h1]
        · intro _
          simp [ha0]
        · intro r hr
          rcases List.mem_append.mp hr with hr | hr
          · exact hres r hr
          · simp at hr
            rw [hr]

theorem exclInv_foldl (outcomes : Nat → BuildOutcome) :
    ∀ (sched : List InitStep) (s : InitSys), exclInv s →
      exclInv (sched.foldl (stepInit outcomes) s) := by
  intro sched
  induction sched with
  | nil => intro s h; exact h
  | cons a sched ih =>
      intro s h
      exact ih _ (exclInv_step outcomes s a h)

theorem firstOkInv_foldl (outcomes : Nat → BuildOutcome) (e : Engine)
    (hout : outcomes 0 = .ok e) :
    ∀ (sched : List InitStep) (s : InitSys), FirstOkInv e s →
      FirstOkInv e (sched.foldl (stepInit outcomes) s) := by
  intro sched
  induction sched with
  | nil => intro s h; exact h
  | cons a sched ih =>
      intro s h
      exact ih _ (firstOkInv_step outcomes e hout s a h)

/-- Counterexample to claim C2: two concurrent first-time callers with a
failing construction.  The schedule lets the first caller enter and start
constructing, the second arrive and join the wait loop, construction fail,
and the waiter wake up.  The constructing caller observes the thrown failure
but the waiter returns `null` (the still-unset `agentInstance`) — the waiter
does not receive the same failure. -/
theorem init_waiter_null_not_failure_cex :
    (runInit (fun _ => BuildOutcome.fail "boom") 2
      [.runStart, .runStart, .runConstructing, .runWaiting]).results =
      [CallResult.thrown "boom", CallResult.nullReturn] ∧
    CallResult.nullReturn ≠ CallResult.thrown "boom" := by
  decide

/-- Amended C2: under any interleaving, at most one construction runs at a
time; when the first attempt succeeds with engine `e`, construction runs at
most once and every caller that returns receives that same engine; a waiter
stepped while `isInitializing` is still set stays in the wait loop (the wait
is a polling re-check of the flag, not a wait/notify); after a failed
construction only the constructing caller observes the failure (waiters get
`null`), and a subsequent caller can retry construction. -/
theorem init_engine_amended :
    (∀ (outcomes : Nat → BuildOutcome) (n : Nat) (sched : List InitStep),
      (runInit outcomes n sched).nConstructing ≤ 1) ∧
    (∀ (e : Engine) (outcomes : Nat → BuildOutcome) (n : Nat)
        (sched : List InitStep), outcomes 0 = .ok e →
      (runInit outcomes n sched).attempts ≤ 1 ∧
      ∀ r ∈ (runInit outcomes n sched).results, r = CallResult.engine e) ∧
    (∀ (outcomes : Nat → BuildOutcome) (s : InitSys),
      s.isInitializing = true → stepInit outcomes s .runWaiting = s) ∧
    ((runInit (fun k => if k = 0 then BuildOutcome.fail "boom" else .ok 7) 2
        [.runStart, .runConstructing, .runStart, .runConstructing]).attempts = 2 ∧
      (runInit (fun k => if k = 0 then BuildOutcome.fail "boom" else .ok 7) 2
        [.runStart, .runConstructing, .runStart, .runConstructing]).results =
        [CallResult.thrown "boom", CallResult.engine 7]) := by
  refine ⟨?_, ?_, ?_, by decide⟩
  · intro outcomes n sched
    have h := exclInv_foldl outcomes sched (initSys n) rfl
    unfold exclInv at h
    rw [runInit, h]
    by_cases hii : (sched.foldl (stepInit outcomes) (initSys n)).isInitializing <;>
      simp [hii]
  · intro e outcomes n sched hout
    have h0 : FirstOkInv e (initSys n) :=
      ⟨rfl, Or.inl ⟨rfl, rfl⟩, by simp [initSys], by simp [initSys],
        by simp [initSys]⟩
    have h := firstOkInv_foldl outcomes e hout sched (initSys n) h0
    constructor
    · have := h.started
      rw [runInit]
      omega
    · exact h.res
  · intro outcomes s hii
    by_cases h0 : s.nWaiting = 0 <;> simp [stepInit, h0, hii]

/-- Witness for the amended C2: three callers, a succeeding construction, a
schedule with an overlapping waiter — everyone who returned got engine 5 and
construction ran at most once. -/
theorem init_engine_amended_witness :
    (runInit (fun _ => BuildOutcome.ok 5) 3
      [.runStart, .runStart, .runConstructing, .runWaiting, .runStart]).attempts ≤ 1 ∧
    ∀ r ∈ (runInit (fun _ => BuildOutcome.ok 5) 3
      [.runStart, .runStart, .runConstructing, .runWaiting, .runStart]).results,
      r = CallResult.engine 5 :=
  init_engine_amended.2.1 5 (fun _ => BuildOutcome.ok 5) 3
    [.runStart, .runStart, .runConstructing, .runWaiting, .runStart] rfl

end GmailMcp
